import Mathlib

/-!
Verification of the PhotoRename metadata-extraction and rename-planning engine
(`main.py`) against its natural-language specification.

The Python source is shallowly embedded: strings are Lean `String`s, raw file
bytes are `List Nat`, Python dictionaries enumerated in insertion order are
association lists, the filesystem seen by `os.path.exists` is a finite list of
existing names/paths, and the Python sentinel return value "未知时间"
("unknown time") is modelled as `Option.none` where noted.  Every definition
follows the corresponding function of `main.py`; definitions whose name ends
in `Spec` are instead written from the specification's words, for refinement
comparisons.
-/

namespace PhotoRename

/-! ## Basic string helpers (models of Python str operations) -/

/-- Model of Python `str.strip()`'s whitespace set (`' '`, tab, LF, CR, VT, FF). -/
def isSpaceChar (c : Char) : Bool :=
  c = ' ' || c = '\t' || c = '\n' || c = '\r' || c = '\x0b' || c = '\x0c'

/-- Model of Python `str.strip()`: drop leading and trailing whitespace. -/
def trimChars (cs : List Char) : List Char :=
  ((cs.dropWhile isSpaceChar).reverse.dropWhile isSpaceChar).reverse

/-- `trimS s` models `s.strip()`. -/
def trimS (s : String) : String := ⟨trimChars s.data⟩

/-- Model of Python `s.replace(" ", "")`: remove every space character. -/
def removeSpaces (s : String) : String := ⟨s.data.filter (fun c => c != ' ')⟩

/-- Model of Python `s.strip('\x00')`: drop leading and trailing NUL characters. -/
def stripNulChars (cs : List Char) : List Char :=
  ((cs.dropWhile (fun c => c = '\x00')).reverse.dropWhile (fun c => c = '\x00')).reverse

/-- ASCII lower-casing of one character (model of `str.lower` on the
extension strings appearing here, which are ASCII). -/
def lowC (c : Char) : Char :=
  if 'A' ≤ c ∧ c ≤ 'Z' then Char.ofNat (c.toNat + 32) else c

/-- `toLowerS s` models `s.lower()` for ASCII strings. -/
def toLowerS (s : String) : String := ⟨s.data.map lowC⟩

/-- Prefix test on character lists. -/
def isPrefOf : List Char → List Char → Bool
  | [], _ => true
  | _ :: _, [] => false
  | a :: as, b :: bs => a = b && isPrefOf as bs

/-- Model of Python `needle in hay` (substring containment). -/
def hasSubstr (needle hay : List Char) : Bool :=
  match hay with
  | [] => isPrefOf needle []
  | _ :: t => isPrefOf needle hay || hasSubstr needle t

/-! ## Decimal rendering of a counter

Python renders the collision counter with `f"{counter}"`, i.e. decimal
notation.  `natStr` is that rendering; it is injective, which is what makes
the suffix-search loops terminate. -/

/-- The ASCII digit character of `d % 10`. -/
def digitChar (d : Nat) : Char := Char.ofNat (48 + d % 10)

/-- Little-endian decimal digits of `n`, with explicit fuel (the fuel `n`
itself always suffices). -/
def natDigitsRev : Nat → Nat → List Char
  | 0, _ => []
  | fuel + 1, n => if n = 0 then [] else digitChar (n % 10) :: natDigitsRev fuel (n / 10)

/-- Decimal rendering of a natural number, as Python `str(n)` / `f"{n}"`. -/
def natStr (n : Nat) : String :=
  if n = 0 then "0" else ⟨(natDigitsRev n n).reverse⟩

/-- Numeric value of a little-endian digit-character list (retraction used to
prove `natStr` injective). -/
def revVal : List Char → Nat
  | [] => 0
  | c :: cs => (c.toNat - 48) + 10 * revVal cs

/-! ## The fresh-suffix search loop

All three collision loops of the source (`generate_unique_filename_preview`,
`generate_unique_filename_actual`, and the re-check loop of
`RenameWorker.rename_files`) are `counter = 1; while True: try candidate
counter; counter += 1` searches.  They are embedded as a fuel-bounded first
match search; the pigeonhole lemma below shows that fuel `busy.length + 1` is
always enough, which is the termination argument for the unbounded Python
loops. -/

/-- First `k` (scanning `start, start+1, ...`, at most `fuel` candidates) with
`f k ∉ busy`. -/
def searchFree (f : Nat → String) (busy : List String) : Nat → Nat → Option Nat
  | 0, _ => none
  | fuel + 1, k => if f k ∈ busy then searchFree f busy fuel (k + 1) else some k

/-! ## Filename planner (`generate_unique_filename_preview` / `_actual`) -/

/-- The suffixed candidate `f"{base_name}_{counter}{extension}"`. -/
def suffixedName (base ext : String) (k : Nat) : String :=
  base ++ "_" ++ natStr k ++ ext

/-- Embedding of `PhotoRenamerApp.generate_unique_filename_preview`
(main.py:761-772): first try `f"{base_name}{extension}"`, then
`_1`, `_2`, ... until the candidate is not in `existing_names`. -/
def generate_unique_filename_preview (base ext : String) (existing : List String) : String :=
  let c0 := base ++ ext
  if c0 ∈ existing then
    match searchFree (fun k => suffixedName base ext k) existing (existing.length + 1) 1 with
    | some k => suffixedName base ext k
    | none => c0
  else c0

/-- Embedding of `PhotoRenamerApp.generate_unique_filename_actual`
(main.py:868-883).  `folderNames` models the set of file names existing on
disk in `folder_path` (so `os.path.exists(os.path.join(folder_path, c))`
becomes `c ∈ folderNames`); `used` is the `used_names` set. -/
def generate_unique_filename_actual (base ext : String) (folderNames used : List String) : String :=
  let c0 := base ++ ext
  if c0 ∈ used ∨ c0 ∈ folderNames then
    let busy := used ++ folderNames
    match searchFree (fun k => suffixedName base ext k) busy (busy.length + 1) 1 with
    | some k => suffixedName base ext k
    | none => c0
  else c0

/-! ## DateTime normalizer (`ExifWorker.format_datetime_string`, main.py:399-431)

`datetime.strptime` is modelled for the ten format patterns of the source.
Python's `_strptime` matches each directive with a regex (`%Y` exactly four
digits; `%m`,`%d`,`%H`,`%M`,`%S` one or two digits within their ranges, the
`%S` regex also admitting the leap seconds 60/61; `%f` one to six digits;
whitespace in the format one-or-more whitespace characters; literals matched
case-insensitively) and requires the whole string to be consumed; the
subsequent `datetime(...)` construction additionally requires year ≥ 1, a day
valid for the month (Gregorian, with leap years) and seconds ≤ 59.  A
`ValueError` from either step is caught by the source and the next pattern is
tried.  The Python failure sentinel "未知时间" is modelled as `none`. -/

/-- One directive or literal of a `strptime` format string. -/
inductive FTok
  | year | month | day | hour | minute | second | frac | ws | lit (c : Char)
deriving DecidableEq

/-- The six datetime fields recovered by a successful parse (strptime
defaults: 1900-01-01 00:00:00, so seconds default to 0 when the pattern has
no `%S`). -/
structure DTParts where
  y : Nat := 1900
  mo : Nat := 1
  d : Nat := 1
  h : Nat := 0
  mi : Nat := 0
  s : Nat := 0
deriving DecidableEq

def isDigitChar (c : Char) : Bool := '0' ≤ c && c ≤ '9'

/-- Value of a run of decimal digit characters. -/
def digitsToNat (ds : List Char) : Nat :=
  ds.foldl (fun acc c => 10 * acc + (c.toNat - 48)) 0

/-- Match a 1-2 digit directive whose value must lie in `[lo, hi]`
(the alternation compiled by `_strptime` for `%m`,`%d`,`%H`,`%M`,`%S`). -/
def matchNum2 (lo hi : Nat) (cs : List Char) : Option (Nat × List Char) :=
  let ds := cs.takeWhile isDigitChar
  let v := digitsToNat ds
  if 1 ≤ ds.length ∧ ds.length ≤ 2 ∧ lo ≤ v ∧ v ≤ hi then
    some (v, cs.dropWhile isDigitChar)
  else none

/-- Match a token list against the input characters, threading the parsed
fields; `none` models a `ValueError` (no regex match, or unconverted data
remaining at the end). -/
def matchToks : List FTok → List Char → DTParts → Option DTParts
  | [], [], st => some st
  | [], _ :: _, _ => none
  | FTok.year :: rest, cs, st =>
    let ds := cs.takeWhile isDigitChar
    if ds.length = 4 then matchToks rest (cs.dropWhile isDigitChar) { st with y := digitsToNat ds }
    else none
  | FTok.month :: rest, cs, st =>
    match matchNum2 1 12 cs with
    | some (v, cs2) => matchToks rest cs2 { st with mo := v }
    | none => none
  | FTok.day :: rest, cs, st =>
    match matchNum2 1 31 cs with
    | some (v, cs2) => matchToks rest cs2 { st with d := v }
    | none => none
  | FTok.hour :: rest, cs, st =>
    match matchNum2 0 23 cs with
    | some (v, cs2) => matchToks rest cs2 { st with h := v }
    | none => none
  | FTok.minute :: rest, cs, st =>
    match matchNum2 0 59 cs with
    | some (v, cs2) => matchToks rest cs2 { st with mi := v }
    | none => none
  | FTok.second :: rest, cs, st =>
    match matchNum2 0 61 cs with
    | some (v, cs2) => matchToks rest cs2 { st with s := v }
    | none => none
  | FTok.frac :: rest, cs, st =>
    let ds := cs.takeWhile isDigitChar
    if 1 ≤ ds.length ∧ ds.length ≤ 6 then matchToks rest (cs.dropWhile isDigitChar) st
    else none
  | FTok.ws :: rest, cs, st =>
    if (cs.takeWhile isSpaceChar).length ≥ 1 then matchToks rest (cs.dropWhile isSpaceChar) st
    else none
  | FTok.lit c :: rest, cs, st =>
    match cs with
    | [] => none
    | c2 :: cs2 => if lowC c2 = lowC c then matchToks rest cs2 st else none

def isLeapYear (y : Nat) : Bool := (y % 4 = 0 && y % 100 ≠ 0) || y % 400 = 0

def daysInMonth (y m : Nat) : Nat :=
  if m = 2 then (if isLeapYear y then 29 else 28)
  else if m = 4 ∨ m = 6 ∨ m = 9 ∨ m = 11 then 30 else 31

/-- The checks done by the `datetime(...)` constructor beyond what the
directive regexes guarantee. -/
def validDT (st : DTParts) : Bool :=
  1 ≤ st.y && st.d ≤ daysInMonth st.y st.mo && st.s ≤ 59

/-- Zero-padded two-digit rendering (`strftime` `%m`/`%d`/`%H`/`%M`/`%S`). -/
def pad2 (n : Nat) : String := ⟨[digitChar (n / 10), digitChar n]⟩

/-- Zero-padded four-digit rendering of the year (`strftime` `%Y`; the parser
only produces years ≤ 9999). -/
def pad4 (n : Nat) : String :=
  ⟨[digitChar (n / 1000), digitChar (n / 100), digitChar (n / 10), digitChar n]⟩

/-- `dt_obj.strftime("%Y%m%d_%H%M%S")`. -/
def emitTS (st : DTParts) : String :=
  pad4 st.y ++ pad2 st.mo ++ pad2 st.d ++ "_" ++ pad2 st.h ++ pad2 st.mi ++ pad2 st.s

/-- `%Y<sep>%m<sep>%d` prefix shared by the patterns. -/
def dmy (sep : Char) : List FTok :=
  [FTok.year, FTok.lit sep, FTok.month, FTok.lit sep, FTok.day]

/-- `%H:%M:%S`. -/
def hmsToks : List FTok :=
  [FTok.hour, FTok.lit ':', FTok.minute, FTok.lit ':', FTok.second]

/-- `%H:%M`. -/
def hmToks : List FTok := [FTok.hour, FTok.lit ':', FTok.minute]

/-- The ten format patterns of main.py:411-422, in source order.  Note: only
the `:`- and `-`-separated patterns have a fractional-second variant; there
is no `"%Y/%m/%d %H:%M:%S.%f"` entry in the source. -/
def fmtList : List (List FTok) :=
  [ dmy ':' ++ [FTok.ws] ++ hmsToks,
    dmy '-' ++ [FTok.ws] ++ hmsToks,
    dmy '/' ++ [FTok.ws] ++ hmsToks,
    dmy ':' ++ [FTok.ws] ++ hmsToks ++ [FTok.lit '.', FTok.frac],
    dmy '-' ++ [FTok.ws] ++ hmsToks ++ [FTok.lit '.', FTok.frac],
    dmy '-' ++ [FTok.lit 'T'] ++ hmsToks,
    dmy '-' ++ [FTok.lit 'T'] ++ hmsToks ++ [FTok.lit 'Z'],
    dmy ':' ++ [FTok.ws] ++ hmToks,
    dmy '-' ++ [FTok.ws] ++ hmToks,
    dmy '/' ++ [FTok.ws] ++ hmToks ]

/-- `datetime.strptime(s, fmt)` followed by `strftime("%Y%m%d_%H%M%S")`,
`none` on `ValueError`. -/
def tryFmt (toks : List FTok) (cs : List Char) : Option String :=
  match matchToks toks cs {} with
  | some st => if validDT st then some (emitTS st) else none
  | none => none

/-- Embedding of `ExifWorker.format_datetime_string` (main.py:399-431), with
`none` for the Python return value "未知时间". -/
def format_datetime_string (s : String) : Option String :=
  if s = "" then none
  else fmtList.findSome? (fun f => tryFmt f (trimChars s.data))

/-! ## Structured tag access (`ExifWorker.parse_exif_with_pil`, main.py:153-249)

A tag dictionary (PIL `getexif()` result, enumerated in insertion order) is
modelled as a list of entries.  The source converts each raw value (bytes,
str or other) to a whitespace-stripped string; the entry's `value` field
holds the string before stripping, and the embedding applies the strip. -/

/-- One tag of the dictionary: `name` is `TAGS.get(tag_id, tag_id)` as a
string, `value` the string conversion of the raw value (before `strip()`). -/
structure TagEntry where
  name : String
  value : String
deriving DecidableEq

/-- The sentinel timestamp rejected by the source. -/
def zeroSentinel : String := "0000:00:00 00:00:00"

/-- A stripped value is usable if non-empty and not the all-zero sentinel. -/
def usableValue (v : String) : Bool := v ≠ "" && v ≠ zeroSentinel

/-- The priority list of main.py:156-162. -/
def time_fields : List String :=
  ["DateTimeOriginal", "DateTime", "DateTimeDigitized", "CreateDate", "ModifyDate"]

/-- Inner loop of the priority search (main.py:169-203): scan all entries for
`field`, breaking at the first usable value, while also capturing
`Model`/`Make` into the camera-model accumulator. -/
def scanField (field : String) : List TagEntry → String → Option String × String
  | [], cm => (none, cm)
  | e :: rest, cm =>
    if e.name = field then
      let v := trimS e.value
      if usableValue v then (some v, cm) else scanField field rest cm
    else if e.name = "Model" then
      scanField field rest (removeSpaces (trimS e.value))
    else if e.name = "Make" then
      let mk := trimS e.value
      if mk ≠ "" ∧ cm = "Unknown" then scanField field rest (removeSpaces mk)
      else scanField field rest cm
    else scanField field rest cm

/-- Outer loop of the priority search (main.py:168-205): try each time field
in priority order, threading the camera-model accumulator. -/
def scanFields : List String → List TagEntry → String → Option String × String
  | [], _, cm => (none, cm)
  | f :: fs, entries, cm =>
    match scanField f entries cm with
    | (some v, cm2) => (some v, cm2)
    | (none, cm2) => scanFields fs entries cm2

/-- Fallback single pass of main.py:208-241: first entry whose name is any
time field and whose value is usable, again capturing `Model`/`Make`. -/
def scanAnyTime (fields : List String) : List TagEntry → String → Option String × String
  | [], cm => (none, cm)
  | e :: rest, cm =>
    if e.name ∈ fields then
      let v := trimS e.value
      if usableValue v then (some v, cm) else scanAnyTime fields rest cm
    else if e.name = "Model" then
      scanAnyTime fields rest (removeSpaces (trimS e.value))
    else if e.name = "Make" then
      let mk := trimS e.value
      if mk ≠ "" ∧ cm = "Unknown" then scanAnyTime fields rest (removeSpaces mk)
      else scanAnyTime fields rest cm
    else scanAnyTime fields rest cm

/-- Embedding of `ExifWorker.parse_exif_with_pil` (main.py:153-249).  The
first component is the normalized timestamp (`none` models "未知时间"), the
second the camera model string. -/
def parse_exif_with_pil (entries : List TagEntry) : Option String × String :=
  let r1 := scanFields time_fields entries "Unknown"
  let r2 := match r1.1 with
    | some _ => r1
    | none => scanAnyTime time_fields entries r1.2
  (r2.1.bind format_datetime_string, r2.2)

/-- Written from the specification's words: "Search for a timestamp using
this strict priority order of tag names …  Within a single priority level,
the first occurrence found while enumerating all tags wins."  First usable
occurrence of one field: -/
def firstUsableSpec (field : String) : List TagEntry → Option String
  | [] => none
  | e :: rest =>
    if e.name = field ∧ usableValue (trimS e.value) then some (trimS e.value)
    else firstUsableSpec field rest

/-- Written from the specification's words: the priority selection over the
field list. -/
def priorityLookupSpec : List String → List TagEntry → Option String
  | [], _ => none
  | f :: fs, entries =>
    match firstUsableSpec f entries with
    | some v => some v
    | none => priorityLookupSpec fs entries

/-! ## Manual binary scan (`parse_tiff_data` / `parse_ifd`, main.py:293-397)

Bytes are `List Nat` (each < 256 in practice; out-of-range reads are guarded
by the source's own length checks).  `bytes.decode('utf-8', errors='ignore')`
is modelled on the ASCII plane: bytes ≥ 0x80 are dropped (EXIF timestamp and
camera strings are ASCII). -/

inductive Endian
  | little | big
deriving DecidableEq

/-- `struct.unpack(endian + 'H', …)` of the two bytes at `off`. -/
def readU16 (l : List Nat) (off : Nat) (e : Endian) : Nat :=
  let b0 := l.getD off 0
  let b1 := l.getD (off + 1) 0
  match e with
  | Endian.little => b0 + 256 * b1
  | Endian.big => b1 + 256 * b0

/-- `struct.unpack(endian + 'L', …)` of the four bytes at `off`. -/
def readU32 (l : List Nat) (off : Nat) (e : Endian) : Nat :=
  match e with
  | Endian.little => readU16 l off Endian.little + 65536 * readU16 l (off + 2) Endian.little
  | Endian.big => readU16 l (off + 2) Endian.big + 65536 * readU16 l off Endian.big

/-- Python slice `l[off : off + len]`. -/
def sliceL (l : List Nat) (off len : Nat) : List Nat := (l.drop off).take len

/-- `bytes.decode('utf-8', errors='ignore')`, modelled on the ASCII plane. -/
def decodeIgnore (bs : List Nat) : List Char :=
  bs.filterMap (fun b => if b < 128 then some (Char.ofNat b) else none)

/-- Decode and NUL-strip a timestamp value: `value_data.decode(...).strip('\x00')`. -/
def decodeDateStr (bs : List Nat) : String := ⟨stripNulChars (decodeIgnore bs)⟩

/-- Decode a camera string: `value_data.decode(...).strip('\x00').strip().replace(" ", "")`. -/
def decodeCameraStr (bs : List Nat) : String :=
  removeSpaces (trimS ⟨stripNulChars (decodeIgnore bs)⟩)

/-- Processing of the `i`-th 12-byte IFD entry (body of the loop at
main.py:335-392) on the state `(date_time, camera_model)`.  Note the two
faithful quirks of the source: a usable timestamp value *overwrites* any
previously found one (no break, no priority), and in the `count <= 4` case
`value_data` is assigned from the inline field but never decoded or used. -/
def ifdEntry (tiff : List Nat) (entryStart : Nat) (e : Endian)
    (st : String × String) (i : Nat) : String × String :=
  let eo := entryStart + i * 12
  if eo + 12 > tiff.length then st
  else
    let entry := sliceL tiff eo 12
    let tag := readU16 entry 0 e
    let count := readU32 entry 4 e
    let voff := readU32 entry 8 e
    if tag = 306 ∨ tag = 36867 ∨ tag = 36868 then
      if count < 20 then
        if count ≤ 4 then st
        else if voff < tiff.length then
          let vd := sliceL tiff voff count
          if count ≤ vd.length then
            let ds := decodeDateStr vd
            if ds ≠ "" ∧ ds ≠ zeroSentinel then
              match format_datetime_string ds with
              | some ft => (ft, st.2)
              | none => st
            else st
          else st
        else st
      else st
    else if tag = 272 then
      if count ≤ 4 then st
      else if voff < tiff.length then
        let vd := sliceL tiff voff count
        if count ≤ vd.length then
          let ms := decodeCameraStr vd
          if ms ≠ "" then (st.1, ms) else st
        else st
      else st
    else if tag = 271 then
      if count ≤ 4 then st
      else if voff < tiff.length then
        let vd := sliceL tiff voff count
        if count ≤ vd.length then
          let ms := decodeCameraStr vd
          if ms ≠ "" ∧ st.2 = "Unknown" then (st.1, ms) else st
        else st
      else st
    else st

/-- Embedding of `ExifWorker.parse_ifd` (main.py:323-397). -/
def parse_ifd (tiff : List Nat) (offset : Nat) (e : Endian) : String × String :=
  if offset + 2 > tiff.length then ("未知时间", "Unknown")
  else
    (List.range (readU16 tiff offset e)).foldl
      (ifdEntry tiff (offset + 2) e) ("未知时间", "Unknown")

/-- Embedding of `ExifWorker.parse_tiff_data` (main.py:293-321). -/
def parse_tiff_data (tiff : List Nat) : String × String :=
  if tiff.length < 8 then ("未知时间", "Unknown")
  else if sliceL tiff 0 2 = [73, 73] then
    if readU16 tiff 2 Endian.little ≠ 42 then ("未知时间", "Unknown")
    else parse_ifd tiff (readU32 tiff 4 Endian.little) Endian.little
  else if sliceL tiff 0 2 = [77, 77] then
    if readU16 tiff 2 Endian.big ≠ 42 then ("未知时间", "Unknown")
    else parse_ifd tiff (readU32 tiff 4 Endian.big) Endian.big
  else ("未知时间", "Unknown")

/-- The timestamp candidate contributed by the `i`-th IFD entry, in
isolation: `some v` exactly when the entry is a time tag whose
(offset-stored) value decodes, is non-sentinel and normalizes to `v`. -/
def entryTimeCandidate (tiff : List Nat) (entryStart : Nat) (e : Endian) (i : Nat) :
    Option String :=
  let eo := entryStart + i * 12
  if eo + 12 > tiff.length then none
  else
    let entry := sliceL tiff eo 12
    let tag := readU16 entry 0 e
    let count := readU32 entry 4 e
    let voff := readU32 entry 8 e
    if tag = 306 ∨ tag = 36867 ∨ tag = 36868 then
      if count < 20 then
        if count ≤ 4 then none
        else if voff < tiff.length then
          let vd := sliceL tiff voff count
          if count ≤ vd.length then
            let ds := decodeDateStr vd
            if ds ≠ "" ∧ ds ≠ zeroSentinel then format_datetime_string ds
            else none
          else none
        else none
      else none
    else none

/-- Last `some` among the candidates of entries `0 … n-1`. -/
def lastCandidate (f : Nat → Option String) : Nat → Option String
  | 0 => none
  | n + 1 =>
    match f n with
    | some v => some v
    | none => lastCandidate f n

/-! ## Extraction engine (`ExifWorker.get_advanced_exif_data`, main.py:103-151)

The four access paths to one file's metadata are modelled as fields of a
`FileModel`: each of the three structured accessors (`getexif()`,
`_getexif()`, `_exif`) either yields a tag dictionary or fails
(`none` covering a raised exception, a missing attribute, or an empty/falsy
dictionary — all observationally equivalent in the source); the raw path is
modelled by the TIFF block that `parse_raw_exif`'s JPEG marker walk would
hand to `parse_tiff_data`, `none` when the file is not a JPEG with an EXIF
APP1 segment.  `openFaultMsg` models an unexpected exception reaching the
outer handler of main.py:150-151. -/

structure FileModel where
  openFaultMsg : Option String := none
  getexifTags : Option (List TagEntry) := none
  legacyTags : Option (List TagEntry) := none
  rawAttrTags : Option (List TagEntry) := none
  tiffBlock : Option (List Nat) := none
deriving DecidableEq

/-- One structured stage (main.py:107-137): parse the tags if present and
keep the result only when a usable, normalizable timestamp was found.  The
camera model of a failed stage is dropped, exactly as the source's local
variable is. -/
def stageParse (tags : Option (List TagEntry)) : Option (String × String) :=
  match tags with
  | none => none
  | some es =>
    match parse_exif_with_pil es with
    | (some dt, cm) => some (dt, cm)
    | (none, _) => none

/-- The raw stage (main.py:139-145) through the modelled TIFF block. -/
def rawStage (blk : Option (List Nat)) : Option (String × String) :=
  match blk with
  | none => none
  | some bs =>
    let r := parse_tiff_data bs
    if r.1 ≠ "未知时间" then some r else none

/-- Embedding of `ExifWorker.get_advanced_exif_data` (main.py:103-151):
result is `(date_time, camera_model, error_msg)`. -/
def get_advanced_exif_data (f : FileModel) : String × String × Option String :=
  match f.openFaultMsg with
  | some m => ("未知时间", "Unknown", some ("错误: " ++ m))
  | none =>
    match stageParse f.getexifTags with
    | some (dt, cm) => (dt, cm, none)
    | none =>
      match stageParse f.legacyTags with
      | some (dt, cm) => (dt, cm, none)
      | none =>
        match stageParse f.rawAttrTags with
        | some (dt, cm) => (dt, cm, none)
        | none =>
          match rawStage f.tiffBlock with
          | some (dt, cm) => (dt, cm, none)
          | none => ("未知时间", "Unknown", some "无EXIF信息")

/-! ## Path helpers (`os.path` models) -/

/-- `os.path.basename`: the part after the last `'/'`. -/
def basename (p : String) : String :=
  ⟨(p.data.reverse.takeWhile (fun c => c != '/')).reverse⟩

/-- `os.path.dirname`: the part before the last `'/'` (trailing separators
stripped unless the result is all separators); `""` when there is none. -/
def dirname (p : String) : String :=
  let rev := p.data.reverse
  let afterSlash := rev.dropWhile (fun c => c != '/')
  if afterSlash = [] then ""
  else
    let head := afterSlash.reverse
    if head.all (fun c => c = '/') then ⟨head⟩
    else ⟨(afterSlash.dropWhile (fun c => c = '/')).reverse⟩

/-- `os.path.join(d, n)` for the relative names produced by the planner. -/
def pathJoin (d n : String) : String :=
  if d = "" then n
  else if (match d.data.reverse with | [] => false | c :: _ => c = '/') then d ++ n
  else d ++ "/" ++ n

/-- `os.path.splitext(name)`'s extension (with its dot): from the last dot,
provided some earlier character of the name is not a dot. -/
def splitextExt (name : String) : String :=
  let rev := name.data.reverse
  let afterDot := rev.takeWhile (fun c => c != '.')
  if afterDot.length = rev.length then ""
  else
    let beforeDot := rev.drop (afterDot.length + 1)
    if beforeDot.any (fun c => c != '.') then ⟨'.' :: afterDot.reverse⟩ else ""

/-! ## Scan worker (`ExifWorker.process_files`, main.py:32-101) -/

/-- One input file of a scan batch: its path, its metadata model, and a flag
modelling an unexpected exception raised while processing it (caught by the
per-file handler at main.py:88-96). -/
structure ScanFile where
  filepath : String
  model : FileModel := {}
  fault : Bool := false
deriving DecidableEq

/-- The per-file outcome record (the Python dict, with `none` for absent or
`None`-valued keys). -/
structure ScanResult where
  filepath : String
  old_name : String
  date_time : Option String := none
  camera_model : Option String := none
  error : Option String := none
  new_name : Option String := none
  base_name : Option String := none
  extension : Option String := none
deriving DecidableEq

/-- Body of the per-file loop of `process_files` (main.py:36-96).
`heicSupport` models the global `HEIC_SUPPORT`. -/
def processOne (heicSupport : Bool) (f : ScanFile) : ScanResult :=
  if f.fault then
    { filepath := f.filepath, old_name := basename f.filepath,
      error := some "PROCESS_ERROR",
      new_name := some ("ERROR_" ++ basename f.filepath) }
  else
    let old_name := basename f.filepath
    let ext := splitextExt old_name
    if (toLowerS ext = ".heic" ∨ toLowerS ext = ".heif") ∧ ¬ heicSupport then
      { filepath := f.filepath, old_name := old_name,
        error := some "NO_HEIC_SUPPORT",
        new_name := some ("NOHEIC_" ++ old_name) }
    else
      let r := get_advanced_exif_data f.model
      if (match r.2.2 with
          | some m => hasSubstr "错误:".data m.data
          | none => false) then
        { filepath := f.filepath, old_name := old_name,
          error := some "EXIF_ERROR",
          new_name := some ("ERROR_" ++ old_name) }
      else if r.1 = "未知时间" then
        { filepath := f.filepath, old_name := old_name,
          date_time := some "无时间信息", camera_model := some "无相机信息",
          error := some "NO_EXIF_TIME",
          new_name := some ("NOEXIF_" ++ old_name) }
      else
        { filepath := f.filepath, old_name := old_name,
          date_time := some r.1, camera_model := some r.2.1,
          error := none,
          base_name := some (r.1 ++ "_" ++ r.2.1), extension := some ext }

/-- The loop of `process_files` with its progress events
(`progress.emit(i + 1, total)` after every file). -/
def processGo (heicSupport : Bool) (total : Nat) :
    List ScanFile → Nat → List ScanResult × List (Nat × Nat)
  | [], _ => ([], [])
  | f :: fs, i =>
    let r := processOne heicSupport f
    let rest := processGo heicSupport total fs (i + 1)
    (r :: rest.1, (i + 1, total) :: rest.2)

/-- Embedding of `ExifWorker.process_files` (main.py:32-101): the outcome
list (later emitted via `finished`) and the progress events, in order. -/
def process_files (heicSupport : Bool) (files : List ScanFile) :
    List ScanResult × List (Nat × Nat) :=
  processGo heicSupport files.length files 0

/-! ## Rename executor (`RenameWorker.rename_files`, main.py:442-469)

The filesystem is a list of existing paths; `os.rename` succeeds exactly
when the source path exists (the claim's example failure), removing the old
path and creating the new one. -/

/-- One rename task as built by `PhotoRenamerApp.rename_files` (main.py:800-805). -/
structure RenameTask where
  filepath : String
  new_path : String
  base_name : String
  extension : String
deriving DecidableEq

/-- The re-check collision loop of main.py:453-458: while the target exists,
try `f"{base_name}_{counter}{extension}"` in `dirname(filepath)`. -/
def resolveTarget (fs : List String) (t : RenameTask) : String :=
  if t.new_path ∈ fs then
    let dir := dirname t.filepath
    let f := fun k => pathJoin dir (suffixedName t.base_name t.extension k)
    match searchFree f fs (fs.length + 1) 1 with
    | some k => f k
    | none => t.new_path
  else t.new_path

/-- One iteration of the rename loop: resolve the target, then
`os.rename`; `false` models the caught per-file exception. -/
def renameOne (fs : List String) (t : RenameTask) : Bool × List String :=
  let target := resolveTarget fs t
  if t.filepath ∈ fs then (true, target :: fs.erase t.filepath)
  else (false, fs)

/-- The loop of `rename_files` with its progress events. -/
def renameGo (total : Nat) :
    List RenameTask → Nat → List String → Nat × Nat × List String × List (Nat × Nat)
  | [], _, fs => (0, 0, fs, [])
  | t :: ts, i, fs =>
    let r := renameOne fs t
    let rest := renameGo total ts (i + 1) r.2
    ((if r.1 then 1 else 0) + rest.1, (if r.1 then 0 else 1) + rest.2.1,
      rest.2.2.1, (i + 1, total) :: rest.2.2.2)

/-- Embedding of `RenameWorker.rename_files` (main.py:442-469): returns
`(success_count, error_count, final filesystem, progress events)`. -/
def rename_files (fs : List String) (tasks : List RenameTask) :
    Nat × Nat × List String × List (Nat × Nat) :=
  renameGo tasks.length tasks 0 fs

/-! ## Orchestrator (`PhotoRenamerApp`, main.py:471-883)

Only the engine-relevant state is modelled: the selected files, the preview
results and the `rename_completed` flag. -/

structure AppState where
  selected_files : List String := []
  preview_results : List ScanResult := []
  rename_completed : Bool := false
deriving DecidableEq

/-- Embedding of `PhotoRenamerApp.reset_all` (main.py:646-659), engine state
only. -/
def reset_all (_st : AppState) : AppState :=
  { selected_files := [], preview_results := [], rename_completed := false }

/-- Embedding of `PhotoRenamerApp.on_preview_finished` (main.py:703-720):
stores the scan outcomes; `rename_completed` is read but never written. -/
def on_preview_finished (st : AppState) (results : List ScanResult) : AppState :=
  { st with preview_results := results }

/-- Task building of `PhotoRenamerApp.rename_files` (main.py:785-805),
threading `used_names`; `disk` maps a folder path to the names existing in
it. -/
def buildTasks (disk : String → List String) :
    List ScanResult → List String → List RenameTask
  | [], _ => []
  | r :: rest, used =>
    match r.error, r.base_name, r.extension with
    | none, some b, some e =>
      let folder := dirname r.filepath
      let nn := generate_unique_filename_actual b e (disk folder) used
      { filepath := r.filepath, new_path := pathJoin folder nn,
        base_name := b, extension := e } :: buildTasks disk rest (nn :: used)
    | _, _, _ => buildTasks disk rest used

/-- Outcome of a rename request. -/
inductive RequestResult
  | rejectedDone
  | rejectedNoPreview
  | rejectedNoTasks
  | launched (tasks : List RenameTask)
deriving DecidableEq

/-- Embedding of `PhotoRenamerApp.rename_files` (main.py:774-845) up to
starting the worker (the confirmation dialog is modelled as answered Yes):
the guard of main.py:776-778 rejects any request once `rename_completed`
holds, without touching any state. -/
def rename_request (disk : String → List String) (st : AppState) :
    RequestResult × AppState :=
  if st.rename_completed then (RequestResult.rejectedDone, st)
  else if st.preview_results = [] then (RequestResult.rejectedNoPreview, st)
  else
    let tasks := buildTasks disk st.preview_results []
    if tasks = [] then (RequestResult.rejectedNoTasks, st)
    else (RequestResult.launched tasks, { st with rename_completed := true })

/-- The threading of `used_names` over a preview batch
(`update_preview_table`, main.py:729-746): plan each name, then claim it. -/
def planBatch : List (String × String) → List String → List String
  | [], _ => []
  | be :: rest, used =>
    let n := generate_unique_filename_preview be.1 be.2 used
    n :: planBatch rest (n :: used)

/-- Written from the specification's words (§7): a per-file outcome record is
one of the tagged variants — a success carrying the data needed for renaming,
or a failure tagged with one of the recognized kinds and a fallback name. -/
def taggedOutcomeSpec (r : ScanResult) : Bool :=
  match r.error with
  | none => r.base_name.isSome && r.extension.isSome && r.date_time.isSome && r.camera_model.isSome
  | some e =>
    (e = "NO_HEIC_SUPPORT" || e = "EXIF_ERROR" || e = "NO_EXIF_TIME" || e = "PROCESS_ERROR")
      && r.new_name.isSome

/-! # Theorems -/

/-! ## String and rendering lemmas -/

theorem strData_append (s t : String) : (s ++ t).data = s.data ++ t.data := rfl

theorem strEq_of_data {s t : String} (h : s.data = t.data) : s = t := by
  cases s; cases t; exact congrArg String.mk h

theorem digitChar_toNat (d : Nat) : (digitChar d).toNat = 48 + d % 10 := by
  have h : d % 10 < 10 := Nat.mod_lt _ (by norm_num)
  unfold digitChar
  set k := d % 10 with hk
  interval_cases k <;> decide

theorem revVal_natDigitsRev : ∀ fuel n, n ≤ fuel → revVal (natDigitsRev fuel n) = n := by
  intro fuel
  induction fuel with
  | zero => intro n hn; interval_cases n; simp [natDigitsRev, revVal]
  | succ f ih =>
    intro n hn
    by_cases h0 : n = 0
    · simp [natDigitsRev, h0, revVal]
    · have hpos : 0 < n := Nat.pos_of_ne_zero h0
      have hdiv : n / 10 ≤ f := by
        have : n / 10 < n := Nat.div_lt_self hpos (by norm_num)
        omega
      simp only [natDigitsRev, h0, if_false, revVal]
      rw [ih (n / 10) hdiv, digitChar_toNat]
      have : n % 10 % 10 = n % 10 := Nat.mod_mod_of_dvd n (dvd_refl 10)
      omega

theorem natStr_inj : ∀ a b : Nat, natStr a = natStr b → a = b := by
  intro a b h
  by_cases ha : a = 0 <;> by_cases hb : b = 0
  · omega
  · exfalso
    have hd := congrArg String.data h
    simp only [natStr, ha, hb, if_true, if_false] at hd
    have hrev := congrArg List.reverse hd
    simp only [List.reverse_reverse] at hrev
    have hv := revVal_natDigitsRev b b (le_refl b)
    rw [← hrev] at hv
    have h0 : revVal (List.reverse ("0" : String).data) = 0 := by decide
    rw [h0] at hv
    exact hb hv.symm
  · exfalso
    have hd := congrArg String.data h
    simp only [natStr, ha, hb, if_true, if_false] at hd
    have hrev := congrArg List.reverse hd
    simp only [List.reverse_reverse] at hrev
    have hv := revVal_natDigitsRev a a (le_refl a)
    rw [hrev] at hv
    have h0 : revVal (List.reverse ("0" : String).data) = 0 := by decide
    rw [h0] at hv
    exact ha hv.symm
  · have hd := congrArg String.data h
    simp only [natStr, ha, hb, if_false] at hd
    have hrev := congrArg List.reverse hd
    simp only [List.reverse_reverse] at hrev
    have hva := revVal_natDigitsRev a a (le_refl a)
    have hvb := revVal_natDigitsRev b b (le_refl b)
    rw [hrev] at hva
    omega

theorem suffixedName_inj (base ext : String) :
    ∀ a b, suffixedName base ext a = suffixedName base ext b → a = b := by
  intro a b h
  have hd := congrArg String.data h
  simp only [suffixedName, strData_append, List.append_assoc] at hd
  have h1 := List.append_cancel_left hd
  have h2 := List.append_cancel_left h1
  have h3 := List.append_cancel_right h2
  exact natStr_inj a b (strEq_of_data h3)

/-! ## Search-loop lemmas -/

theorem searchFree_none {f : Nat → String} {busy : List String} :
    ∀ fuel start, searchFree f busy fuel start = none → ∀ i, i < fuel → f (start + i) ∈ busy := by
  intro fuel
  induction fuel with
  | zero => intro start _ i hi; omega
  | succ n ih =>
    intro start h i hi
    by_cases hmem : f start ∈ busy
    · simp only [searchFree, hmem, if_true] at h
      cases i with
      | zero => simpa using hmem
      | succ j =>
        have := ih (start + 1) h j (by omega)
        have harr : start + 1 + j = start + (j + 1) := by omega
        rwa [harr] at this
    · simp [searchFree, hmem] at h

theorem searchFree_some {f : Nat → String} {busy : List String} :
    ∀ fuel start k, searchFree f busy fuel start = some k →
      start ≤ k ∧ f k ∉ busy ∧ ∀ m, start ≤ m → m < k → f m ∈ busy := by
  intro fuel
  induction fuel with
  | zero => intro start k h; simp [searchFree] at h
  | succ n ih =>
    intro start k h
    by_cases hmem : f start ∈ busy
    · simp only [searchFree, hmem, if_true] at h
      obtain ⟨h1, h2, h3⟩ := ih (start + 1) k h
      refine ⟨by omega, h2, ?_⟩
      intro m hm1 hm2
      by_cases hms : m = start
      · subst hms; exact hmem
      · exact h3 m (by omega) hm2
    · simp only [searchFree, hmem, if_false] at h
      obtain rfl : start = k := by simpa using h
      exact ⟨le_refl _, hmem, by omega⟩

/-- Pigeonhole termination: with injective candidates, the loop finds a free
name within `busy.length + 1` attempts. -/
theorem searchFree_success (f : Nat → String) (hf : ∀ a b, f a = f b → a = b)
    (busy : List String) (start : Nat) :
    ∃ k, searchFree f busy (busy.length + 1) start = some k := by
  cases hres : searchFree f busy (busy.length + 1) start with
  | some k => exact ⟨k, rfl⟩
  | none =>
    exfalso
    have hall := searchFree_none _ _ hres
    have hmaps : ∀ i ∈ Finset.range (busy.length + 1), f (start + i) ∈ busy.toFinset := by
      intro i hi
      exact List.mem_toFinset.mpr (hall i (Finset.mem_range.mp hi))
    have hinj : Set.InjOn (fun i => f (start + i)) (Finset.range (busy.length + 1)) := by
      intro a _ b _ hab
      have := hf _ _ hab
      omega
    have hcard := Finset.card_le_card_of_injOn _ hmaps hinj
    have h1 : (Finset.range (busy.length + 1)).card = busy.length + 1 := Finset.card_range _
    have h2 : busy.toFinset.card ≤ busy.length := List.toFinset_card_le busy
    omega

/-! ## Planner lemmas -/

theorem preview_not_mem (base ext : String) (existing : List String) :
    generate_unique_filename_preview base ext existing ∉ existing := by
  unfold generate_unique_filename_preview
  by_cases h : base ++ ext ∈ existing
  · obtain ⟨k, hk⟩ :=
      searchFree_success (fun k => suffixedName base ext k) (suffixedName_inj base ext) existing 1
    simp only [h, if_true, hk]
    exact (searchFree_some _ _ _ hk).2.1
  · simp [h]

theorem actual_not_mem (base ext : String) (folderNames used : List String) :
    generate_unique_filename_actual base ext folderNames used ∉ used ∧
      generate_unique_filename_actual base ext folderNames used ∉ folderNames := by
  unfold generate_unique_filename_actual
  by_cases h : base ++ ext ∈ used ∨ base ++ ext ∈ folderNames
  · obtain ⟨k, hk⟩ :=
      searchFree_success (fun k => suffixedName base ext k) (suffixedName_inj base ext)
        (used ++ folderNames) 1
    simp only [h, if_true, hk]
    have hfree := (searchFree_some _ _ _ hk).2.1
    rw [List.mem_append] at hfree
    push_neg at hfree
    exact hfree
  · push_neg at h
    simp [h.1, h.2]

theorem planBatch_not_mem :
    ∀ items used x, x ∈ planBatch items used → x ∉ used := by
  intro items
  induction items with
  | nil => intro used x hx; simp [planBatch] at hx
  | cons be rest ih =>
    intro used x hx
    simp only [planBatch, List.mem_cons] at hx
    cases hx with
    | inl h => subst h; exact preview_not_mem be.1 be.2 used
    | inr h =>
      have := ih _ x h
      intro hu
      exact this (List.mem_cons_of_mem _ hu)

theorem planBatch_nodup : ∀ items used, (planBatch items used).Nodup := by
  intro items
  induction items with
  | nil => intro used; simp [planBatch]
  | cons be rest ih =>
    intro used
    simp only [planBatch, List.nodup_cons]
    refine ⟨?_, ih _⟩
    intro hmem
    exact planBatch_not_mem _ _ _ hmem (List.mem_cons_self _ _)

/-! ## Claim C1 -/

/-- C1: for every base name, extension, directory contents and claimed set,
the execution-mode planner `generate_unique_filename_actual` returns either
`"{base_name}{extension}"` (when that name is neither claimed nor on disk) or
the first suffixed candidate `"{base_name}_{N}{extension}"` (N = 1, 2, …)
that is neither claimed nor on disk; the returned name itself is never
claimed and never on disk — in particular (concrete conjunct) a candidate
existing on disk is rejected even when absent from the claimed set. -/
theorem c1_plan_actual_dual_check :
    (∀ base ext folderNames used,
      let r := generate_unique_filename_actual base ext folderNames used
      (r ∉ used ∧ r ∉ folderNames) ∧
      ((base ++ ext ∉ used ∧ base ++ ext ∉ folderNames) → r = base ++ ext) ∧
      ((base ++ ext ∈ used ∨ base ++ ext ∈ folderNames) →
        ∃ k, 1 ≤ k ∧ r = suffixedName base ext k ∧
          ∀ m, 1 ≤ m → m < k →
            suffixedName base ext m ∈ used ∨ suffixedName base ext m ∈ folderNames)) ∧
    generate_unique_filename_actual "a" ".jpg" ["a.jpg"] [] = "a_1.jpg" := by
  constructor
  · intro base ext folderNames used
    refine ⟨actual_not_mem base ext folderNames used, ?_, ?_⟩
    · intro hfree
      unfold generate_unique_filename_actual
      have h : ¬ (base ++ ext ∈ used ∨ base ++ ext ∈ folderNames) := by
        push_neg
        exact hfree
      simp [h]
    · intro hbusy
      unfold generate_unique_filename_actual
      obtain ⟨k, hk⟩ :=
        searchFree_success (fun k => suffixedName base ext k) (suffixedName_inj base ext)
          (used ++ folderNames) 1
      simp only [hbusy, if_true, hk]
      obtain ⟨h1, _, h3⟩ := searchFree_some _ _ _ hk
      refine ⟨k, h1, rfl, ?_⟩
      intro m hm1 hm2
      have := h3 m hm1 hm2
      rwa [List.mem_append] at this
  · decide

/-- Witness for C1: at a concrete input whose base candidate is on disk but
not claimed, the theorem's conclusions hold. -/
theorem c1_plan_actual_dual_check_witness :
    generate_unique_filename_actual "a" ".jpg" ["a.jpg"] [] ∉ (["a.jpg"] : List String) :=
  ((c1_plan_actual_dual_check.1 "a" ".jpg" ["a.jpg"] []).1).2

/-! ## Claim C10 -/

/-- C10: the unique-filename generators terminate on every finite claimed set
(and finite directory contents): the unbounded `while` search always halts
within `busy.length + 1` candidates; the preview-mode result is never a
member of the claimed set passed in; and threading each result into the
claimed set before the next call (as `update_preview_table` does) yields
pairwise-distinct planned names. -/
theorem c10_generators_terminate_and_fresh :
    (∀ base ext (busy : List String) start,
      ∃ k, searchFree (fun k => suffixedName base ext k) busy (busy.length + 1) start = some k) ∧
    (∀ base ext existing, generate_unique_filename_preview base ext existing ∉ existing) ∧
    (∀ base ext folderNames used,
      generate_unique_filename_actual base ext folderNames used ∉ used ∧
        generate_unique_filename_actual base ext folderNames used ∉ folderNames) ∧
    (∀ items used, (planBatch items used).Nodup) := by
  refine ⟨?_, preview_not_mem, actual_not_mem, planBatch_nodup⟩
  intro base ext busy start
  exact searchFree_success _ (suffixedName_inj base ext) busy start

/-! ## Tag-scan refinement lemmas (for C2) -/

theorem scanField_fst (field : String) :
    ∀ es cm, (scanField field es cm).1 = firstUsableSpec field es := by
  intro es
  induction es with
  | nil => intro cm; rfl
  | cons e rest ih =>
    intro cm
    by_cases hn : e.name = field
    · by_cases hu : usableValue (trimS e.value)
      · simp [scanField, firstUsableSpec, hn, hu]
      · simp [scanField, firstUsableSpec, hn, hu, ih]
    · by_cases hm : e.name = "Model"
      · have hn2 : ¬ (("Model" : String) = field) := fun hh => hn (hm.trans hh)
        simp [scanField, firstUsableSpec, hn, hm, hn2, ih]
      · by_cases hk : e.name = "Make"
        · have hn2 : ¬ (("Make" : String) = field) := fun hh => hn (hk.trans hh)
          by_cases hc : trimS e.value ≠ "" ∧ cm = "Unknown"
          · simp [scanField, firstUsableSpec, hn, hm, hk, hn2, hc, ih]
          · simp [scanField, firstUsableSpec, hn, hm, hk, hn2, hc, ih]
        · simp [scanField, firstUsableSpec, hn, hm, hk, ih]

theorem scanFields_fst : ∀ fs es cm, (scanFields fs es cm).1 = priorityLookupSpec fs es := by
  intro fs
  induction fs with
  | nil => intro es cm; rfl
  | cons f fs ih =>
    intro es cm
    have h1 := scanField_fst f es cm
    unfold scanFields priorityLookupSpec
    cases hsf : scanField f es cm with
    | mk a cm2 =>
      rw [hsf] at h1
      simp only at h1
      cases a with
      | some v => simp [← h1]
      | none => simp [← h1, ih]

theorem firstUsableSpec_cons_none {f : String} {e : TagEntry} {rest : List TagEntry}
    (h : firstUsableSpec f (e :: rest) = none) : firstUsableSpec f rest = none := by
  unfold firstUsableSpec at h
  split at h
  · exact absurd h (by simp)
  · exact h

theorem scanAnyTime_fst_none (fields : List String) :
    ∀ es cm, (∀ f ∈ fields, firstUsableSpec f es = none) →
      (scanAnyTime fields es cm).1 = none := by
  intro es
  induction es with
  | nil => intro cm _; rfl
  | cons e rest ih =>
    intro cm h
    have h2 : ∀ f ∈ fields, firstUsableSpec f rest = none := fun f hf =>
      firstUsableSpec_cons_none (h f hf)
    by_cases hmem : e.name ∈ fields
    · by_cases hu : usableValue (trimS e.value)
      · exfalso
        have h3 := h e.name hmem
        unfold firstUsableSpec at h3
        rw [if_pos ⟨rfl, hu⟩] at h3
        exact absurd h3 (by simp)
      · simp [scanAnyTime, hmem, hu, ih _ h2]
    · by_cases hm : e.name = "Model"
      · have hmem2 : ("Model" : String) ∉ fields := by rw [← hm]; exact hmem
        simp [scanAnyTime, hmem, hm, hmem2, ih _ h2]
      · by_cases hk : e.name = "Make"
        · have hmem2 : ("Make" : String) ∉ fields := by rw [← hk]; exact hmem
          by_cases hc : trimS e.value ≠ "" ∧ cm = "Unknown"
          · simp [scanAnyTime, hmem, hm, hk, hmem2, hc, ih _ h2]
          · simp [scanAnyTime, hmem, hm, hk, hmem2, hc, ih _ h2]
        · simp [scanAnyTime, hmem, hm, hk, ih _ h2]

theorem priorityLookupSpec_none :
    ∀ fs es, priorityLookupSpec fs es = none → ∀ f ∈ fs, firstUsableSpec f es = none := by
  intro fs
  induction fs with
  | nil => intro es _ f hf; simp at hf
  | cons g gs ih =>
    intro es h f hf
    unfold priorityLookupSpec at h
    cases hg : firstUsableSpec g es with
    | some v => rw [hg] at h; exact absurd h (by simp)
    | none =>
      rw [hg] at h
      rcases List.mem_cons.mp hf with rfl | hmem
      · exact hg
      · exact ih es h f hmem

/-- The raw timestamp selected by `parse_exif_with_pil` is exactly the
specification's priority lookup, whatever the camera accumulator does. -/
theorem parse_exif_timestamp_selection (es : List TagEntry) :
    (parse_exif_with_pil es).1 =
      (priorityLookupSpec time_fields es).bind format_datetime_string := by
  unfold parse_exif_with_pil
  have h1 := scanFields_fst time_fields es "Unknown"
  cases hsf : scanFields time_fields es "Unknown" with
  | mk a cm =>
    rw [hsf] at h1
    simp only at h1
    subst h1
    cases hp : priorityLookupSpec time_fields es with
    | some v => simp
    | none =>
      have hall := priorityLookupSpec_none time_fields es hp
      have h2 := scanAnyTime_fst_none time_fields es cm hall
      simp [h2]

/-! ## Claim C2 -/

/-- C2: in the structured tag-access stage, for every tag dictionary the
timestamp is chosen by the strict priority order DateTimeOriginal > DateTime
> DateTimeDigitized > CreateDate > ModifyDate, the first usable occurrence
within a level winning; concretely, given both DateTime
"2021:05:01 10:00:00" and DateTimeOriginal "2021:04:30 09:00:00" the result's
timestamp is 20210430_090000. -/
theorem c2_timestamp_priority :
    (∀ es : List TagEntry,
      (parse_exif_with_pil es).1 =
        (priorityLookupSpec time_fields es).bind format_datetime_string) ∧
    parse_exif_with_pil
        [⟨"DateTime", "2021:05:01 10:00:00"⟩, ⟨"DateTimeOriginal", "2021:04:30 09:00:00"⟩] =
      (some "20210430_090000", "Unknown") := by
  exact ⟨parse_exif_timestamp_selection, by decide⟩

/-! ## Normalizer lemmas (for C6) -/

theorem emitTS_length (st : DTParts) : (emitTS st).length = 15 := by
  simp [emitTS, pad4, pad2, String.length, strData_append]

theorem tryFmt_length (toks : List FTok) (cs : List Char) (r : String)
    (h : tryFmt toks cs = some r) : r.length = 15 := by
  unfold tryFmt at h
  cases hm : matchToks toks cs {} with
  | none => rw [hm] at h; exact absurd h (by simp)
  | some st =>
    rw [hm] at h
    simp only at h
    by_cases hv : validDT st
    · rw [if_pos hv] at h
      obtain rfl : emitTS st = r := by simpa using h
      exact emitTS_length st
    · rw [if_neg hv] at h
      exact absurd h (by simp)

theorem format_datetime_length (s r : String) (h : format_datetime_string s = some r) :
    r.length = 15 := by
  unfold format_datetime_string at h
  by_cases hs : s = ""
  · rw [if_pos hs] at h; exact absurd h (by simp)
  · rw [if_neg hs] at h
    obtain ⟨f, _, hf⟩ := List.exists_of_findSome?_eq_some h
    exact tryFmt_length f (trimChars s.data) r hf

/-! ## Claim C6 -/

/-- C6 counterexample: the source's format list has no `"%Y/%m/%d
%H:%M:%S.%f"` entry, so a `/`-separated date-time with fractional seconds
normalizes to `none`, while the claim's "the same three with fractional
seconds" predicts `some "20210501_100000"` — as the `-`-separated twin
(which *is* in the list) demonstrates. -/
theorem c6_normalize_counterexample :
    format_datetime_string "2021/05/01 10:00:00.5" = none ∧
      format_datetime_string "2021-05-01 10:00:00.5" = some "20210501_100000" := by
  decide

/-- C6 (amended): normalize returns `none` for empty input and for the
sentinel "0000:00:00 00:00:00"; otherwise it tries the ordered pattern list —
the `:`-, `-`- and `/`-separated date-times with seconds, the `:`- and
`-`-separated ones (only those two) with fractional seconds, ISO 8601 with
and without trailing Z, and the three separators without seconds — and on the
first successful parse emits the 15-character `YYYYMMDD_HHMMSS` form with
seconds defaulted to 00 when the matched pattern lacked them; if no pattern
matches it returns `none`. -/
theorem c6_normalize_amended :
    (∀ s r, format_datetime_string s = some r → r.length = 15) ∧
    format_datetime_string "" = none ∧
    format_datetime_string "0000:00:00 00:00:00" = none ∧
    format_datetime_string "2021:04:30 09:05:07" = some "20210430_090507" ∧
    format_datetime_string "2021-04-30 09:05:07" = some "20210430_090507" ∧
    format_datetime_string "2021/04/30 09:05:07" = some "20210430_090507" ∧
    format_datetime_string "2021:04:30 09:05:07.25" = some "20210430_090507" ∧
    format_datetime_string "2021-04-30 09:05:07.123456" = some "20210430_090507" ∧
    format_datetime_string "2021-04-30T09:05:07" = some "20210430_090507" ∧
    format_datetime_string "2021-04-30T09:05:07Z" = some "20210430_090507" ∧
    format_datetime_string "2021:04:30 09:05" = some "20210430_090500" ∧
    format_datetime_string "2021-04-30 09:05" = some "20210430_090500" ∧
    format_datetime_string "2021/04/30 09:05" = some "20210430_090500" ∧
    format_datetime_string "not a date" = none :=
  ⟨format_datetime_length, by decide⟩

/-- Witness for C6: the universal length conclusion at a concrete parse. -/
theorem c6_normalize_amended_witness : ("20210430_090507" : String).length = 15 :=
  c6_normalize_amended.1 "2021:04:30 09:05:07" "20210430_090507" (by decide)

/-! ## Claim C3 -/

/-- C3 counterexample: a file whose structured stage finds the usable—but
not normalizable—timestamp "bogus" together with camera model "Canon".  The
stage's parse does discover "Canon" (second conjunct), yet the engine's final
outcome reports "Unknown": the model found at the failed stage is discarded,
not carried forward. -/
theorem c3_carry_forward_counterexample :
    get_advanced_exif_data
        { getexifTags := some [⟨"Model", "Canon"⟩, ⟨"DateTimeOriginal", "bogus"⟩] } =
      ("未知时间", "Unknown", some "无EXIF信息") ∧
    (parse_exif_with_pil [⟨"Model", "Canon"⟩, ⟨"DateTimeOriginal", "bogus"⟩]).2 = "Canon" := by
  decide

/-- C3 (amended): when a stage finds a timestamp but its normalization fails
(or the stage otherwise yields no usable timestamp), extraction proceeds to
the next stage — the failed stage leaves no trace, so the engine behaves as
if that stage were absent; in particular any camera model or make discovered
at the failed stage is discarded rather than carried forward, and when every
stage fails the final outcome's camera model is the fixed "Unknown". -/
theorem c3_fallback_discards_model :
    (∀ f : FileModel, f.openFaultMsg = none → stageParse f.getexifTags = none →
      get_advanced_exif_data f = get_advanced_exif_data { f with getexifTags := none }) ∧
    (∀ f : FileModel, f.openFaultMsg = none → stageParse f.legacyTags = none →
      get_advanced_exif_data f = get_advanced_exif_data { f with legacyTags := none }) ∧
    (∀ f : FileModel, f.openFaultMsg = none → stageParse f.rawAttrTags = none →
      get_advanced_exif_data f = get_advanced_exif_data { f with rawAttrTags := none }) ∧
    (∀ f : FileModel, f.openFaultMsg = none →
      stageParse f.getexifTags = none → stageParse f.legacyTags = none →
      stageParse f.rawAttrTags = none → rawStage f.tiffBlock = none →
      get_advanced_exif_data f = ("未知时间", "Unknown", some "无EXIF信息")) := by
  have hsp : stageParse none = none := rfl
  refine ⟨?_, ?_, ?_, ?_⟩
  · intro f h1 h2
    simp only [get_advanced_exif_data, h1, h2, hsp]
  · intro f h1 h2
    cases hg : stageParse f.getexifTags with
    | some p =>
      obtain ⟨dt, cm⟩ := p
      simp only [get_advanced_exif_data, h1, hg]
    | none => simp only [get_advanced_exif_data, h1, hg, h2, hsp]
  · intro f h1 h2
    cases hg : stageParse f.getexifTags with
    | some p =>
      obtain ⟨dt, cm⟩ := p
      simp only [get_advanced_exif_data, h1, hg]
    | none =>
      cases hl : stageParse f.legacyTags with
      | some p =>
        obtain ⟨dt, cm⟩ := p
        simp only [get_advanced_exif_data, h1, hg, hl]
      | none => simp only [get_advanced_exif_data, h1, hg, hl, h2, hsp]
  · intro f h1 h2 h3 h4 h5
    simp only [get_advanced_exif_data, h1, h2, h3, h4, h5]

/-- Witness for C3's amended theorem: the stage-skip equation at a concrete
file whose first stage finds a non-normalizable timestamp. -/
theorem c3_fallback_discards_model_witness :
    get_advanced_exif_data
        { getexifTags := some [⟨"Model", "Nikon"⟩, ⟨"DateTime", "junk"⟩] } =
      get_advanced_exif_data
        { ({ getexifTags := some [⟨"Model", "Nikon"⟩, ⟨"DateTime", "junk"⟩] } : FileModel) with
            getexifTags := none } :=
  c3_fallback_discards_model.1 _ rfl (by decide)

/-! ## IFD lemmas (for C4) -/

/-- The timestamp component of one IFD entry step is exactly the entry's
isolated candidate, overwriting the previous state when present. -/
theorem ifdEntry_fst (tiff : List Nat) (entryStart : Nat) (e : Endian)
    (st : String × String) (i : Nat) :
    (ifdEntry tiff entryStart e st i).1 =
      (entryTimeCandidate tiff entryStart e i).getD st.1 := by
  simp only [ifdEntry, entryTimeCandidate]
  repeat' split <;> try rfl
  all_goals simp_all

theorem foldl_ifdEntry_fst (tiff : List Nat) (entryStart : Nat) (e : Endian) :
    ∀ n st, ((List.range n).foldl (ifdEntry tiff entryStart e) st).1 =
      (lastCandidate (entryTimeCandidate tiff entryStart e) n).getD st.1 := by
  intro n
  induction n with
  | zero => intro st; rfl
  | succ m ih =>
    intro st
    rw [List.range_succ, List.foldl_append]
    simp only [List.foldl_cons, List.foldl_nil]
    rw [ifdEntry_fst, ih]
    have hsucc : lastCandidate (entryTimeCandidate tiff entryStart e) (m + 1) =
        match entryTimeCandidate tiff entryStart e m with
        | some v => some v
        | none => lastCandidate (entryTimeCandidate tiff entryStart e) m := rfl
    rw [hsucc]
    cases hc : entryTimeCandidate tiff entryStart e m <;> simp

/-! ## Claim C4 -/

/-- C4 counterexample: an IFD (little endian, two offset-stored entries in
stored order: tag 306 = "2021:01:01 00:00", then tag 36867 =
"2022:02:02 00:00", both usable and normalizable) yields the *second*
entry's timestamp, not the first as the claim states. -/
theorem c4_first_wins_counterexample :
    parse_ifd
        [2, 0,
         50, 1, 2, 0, 16, 0, 0, 0, 26, 0, 0, 0,
         3, 144, 2, 0, 16, 0, 0, 0, 42, 0, 0, 0,
         50, 48, 50, 49, 58, 48, 49, 58, 48, 49, 32, 48, 48, 58, 48, 48,
         50, 48, 50, 50, 58, 48, 50, 58, 48, 50, 32, 48, 48, 58, 48, 48]
        0 Endian.little
      = ("20220202_000000", "Unknown") ∧
    ("20220202_000000" : String) ≠ "20210101_000000" := by
  decide

/-- C4 (amended): in the manual binary scan's IFD parse, when several of the
timestamp tag ids 306, 36867, 36868 are present with usable (non-sentinel,
normalizable) values, the stage's timestamp candidate is the value of the
*last* such tag id encountered while iterating the IFD entries in stored
order — each usable value overwrites the previous candidate, with no
priority re-ordering among the three tag ids. -/
theorem c4_last_usable_tag_wins :
    ∀ (tiff : List Nat) (offset : Nat) (e : Endian), ¬ offset + 2 > tiff.length →
      (parse_ifd tiff offset e).1 =
        (lastCandidate (entryTimeCandidate tiff (offset + 2) e)
            (readU16 tiff offset e)).getD "未知时间" := by
  intro tiff offset e h
  unfold parse_ifd
  rw [if_neg h]
  exact foldl_ifdEntry_fst tiff (offset + 2) e (readU16 tiff offset e) ("未知时间", "Unknown")

/-- Witness for C4's amended theorem: on the two-entry IFD above, the
last-candidate characterization evaluates to the second entry's timestamp. -/
theorem c4_last_usable_tag_wins_witness :
    (parse_ifd
        [2, 0,
         50, 1, 2, 0, 16, 0, 0, 0, 26, 0, 0, 0,
         3, 144, 2, 0, 16, 0, 0, 0, 42, 0, 0, 0,
         50, 48, 50, 49, 58, 48, 49, 58, 48, 49, 32, 48, 48, 58, 48, 48,
         50, 48, 50, 50, 58, 48, 50, 58, 48, 50, 32, 48, 48, 58, 48, 48]
        0 Endian.little).1
      = (lastCandidate
          (entryTimeCandidate
            [2, 0,
             50, 1, 2, 0, 16, 0, 0, 0, 26, 0, 0, 0,
             3, 144, 2, 0, 16, 0, 0, 0, 42, 0, 0, 0,
             50, 48, 50, 49, 58, 48, 49, 58, 48, 49, 32, 48, 48, 58, 48, 48,
             50, 48, 50, 50, 58, 48, 50, 58, 48, 50, 32, 48, 48, 58, 48, 48]
            2 Endian.little)
          2).getD "未知时间" :=
  c4_last_usable_tag_wins _ 0 Endian.little (by decide)

/-! ## Claim C5 -/

/-- C5: the source *documents* inline storage ("值直接存储在offset字段中",
main.py:352) and reads the 4-byte inline field into `value_data`, but then
never decodes or adopts it: for every recognized entry whose value fits in 4
bytes the entry contributes nothing.  Concretely, a little-endian IFD whose
single entry is tag 272 (Model) with count 4 and inline value "Cam\x00"
leaves the camera model "Unknown" — the claim (and the code's own comment)
say the inline value should be decoded and adopted, giving "Cam". -/
theorem c5_inline_value_dead_code :
    parse_ifd [1, 0, 16, 1, 2, 0, 4, 0, 0, 0, 67, 97, 109, 0] 0 Endian.little
      = ("未知时间", "Unknown") ∧
    decodeCameraStr [67, 97, 109, 0] = "Cam" ∧
    (∀ (tiff : List Nat) (entryStart : Nat) (e : Endian) (st : String × String) (i : Nat),
      readU32 (sliceL tiff (entryStart + i * 12) 12) 4 e ≤ 4 →
        ifdEntry tiff entryStart e st i = st) := by
  refine ⟨by decide, by decide, ?_⟩
  intro tiff entryStart e st i h
  unfold ifdEntry
  dsimp only
  repeat' split <;> try rfl

/-- Witness for C5's universal conjunct: the inline Model entry (count 4)
leaves the state untouched. -/
theorem c5_inline_value_dead_code_witness :
    ifdEntry [1, 0, 16, 1, 2, 0, 4, 0, 0, 0, 67, 97, 109, 0] 2 Endian.little
        ("未知时间", "Unknown") 0
      = ("未知时间", "Unknown") :=
  c5_inline_value_dead_code.2.2 [1, 0, 16, 1, 2, 0, 4, 0, 0, 0, 67, 97, 109, 0] 2
    Endian.little ("未知时间", "Unknown") 0 (by decide)

/-! ## Scan-worker lemmas (for C7) -/

theorem processOne_filepath (heic : Bool) (f : ScanFile) :
    (processOne heic f).filepath = f.filepath := by
  unfold processOne
  dsimp only
  repeat' split <;> try rfl

theorem processOne_tagged (heic : Bool) (f : ScanFile) :
    taggedOutcomeSpec (processOne heic f) = true := by
  unfold processOne
  dsimp only
  repeat' split
  all_goals rfl

theorem processGo_map_filepath (heic : Bool) (total : Nat) :
    ∀ files i, ((processGo heic total files i).1).map ScanResult.filepath =
      files.map ScanFile.filepath := by
  intro files
  induction files with
  | nil => intro i; rfl
  | cons f fs ih =>
    intro i
    simp only [processGo, List.map_cons]
    exact congrArg₂ _ (processOne_filepath heic f) (ih (i + 1))

theorem processGo_all_tagged (heic : Bool) (total : Nat) :
    ∀ files i, ((processGo heic total files i).1).all taggedOutcomeSpec = true := by
  intro files
  induction files with
  | nil => intro i; rfl
  | cons f fs ih =>
    intro i
    simp only [processGo, List.all_cons]
    rw [processOne_tagged, ih (i + 1)]
    rfl

theorem processGo_progress (heic : Bool) (total : Nat) :
    ∀ files i, (processGo heic total files i).2 =
      (List.range files.length).map (fun j => (i + j + 1, total)) := by
  intro files
  induction files with
  | nil => intro i; rfl
  | cons f fs ih =>
    intro i
    simp only [processGo, List.length_cons]
    rw [ih (i + 1), List.range_succ_eq_map]
    simp only [List.map_cons, List.map_map, Nat.add_zero]
    refine congrArg₂ List.cons rfl ?_
    apply List.map_congr_left
    intro a _
    simp only [Function.comp_apply, Prod.mk.injEq, Nat.succ_eq_add_one]
    exact ⟨by omega, trivial⟩

/-! ## Claim C7 -/

/-- C7: for every HEIC-support setting and input file list, the scan phase
produces exactly one outcome record per input file, in input order (the
outcome list projects back to the input path list, so lengths agree and the
i-th outcome belongs to the i-th file); every record is one of the tagged
variants (success, NO_HEIC_SUPPORT, EXIF_ERROR, NO_EXIF_TIME, PROCESS_ERROR)
— per-file failures, including the modelled unexpected faults, become data,
and the total function never lets one propagate; and one progress event
`(i+1, total)` is emitted per file. -/
theorem c7_one_tagged_outcome_per_file :
    ∀ (heicSupport : Bool) (files : List ScanFile),
      ((process_files heicSupport files).1).map ScanResult.filepath =
          files.map ScanFile.filepath ∧
      ((process_files heicSupport files).1).all taggedOutcomeSpec = true ∧
      (process_files heicSupport files).2 =
        (List.range files.length).map (fun j => (j + 1, files.length)) := by
  intro heic files
  refine ⟨processGo_map_filepath heic files.length files 0,
    processGo_all_tagged heic files.length files 0, ?_⟩
  rw [process_files, processGo_progress heic files.length files 0]
  apply List.map_congr_left
  intro a _
  simp only [Prod.mk.injEq, Nat.zero_add]

/-! ## Rename-executor lemmas (for C8) -/

theorem renameGo_counts (total : Nat) :
    ∀ tasks i fs,
      (renameGo total tasks i fs).1 + (renameGo total tasks i fs).2.1 = tasks.length := by
  intro tasks
  induction tasks with
  | nil => intro i fs; rfl
  | cons t ts ih =>
    intro i fs
    have hih := ih (i + 1) (renameOne fs t).2
    simp only [renameGo, List.length_cons]
    by_cases hr : (renameOne fs t).1 = true
    · rw [if_pos hr, if_pos hr]; omega
    · rw [if_neg hr, if_neg hr]; omega

theorem renameGo_progress (total : Nat) :
    ∀ tasks i fs, (renameGo total tasks i fs).2.2.2 =
      (List.range tasks.length).map (fun j => (i + j + 1, total)) := by
  intro tasks
  induction tasks with
  | nil => intro i fs; rfl
  | cons t ts ih =>
    intro i fs
    simp only [renameGo, List.length_cons]
    rw [ih (i + 1), List.range_succ_eq_map]
    simp only [List.map_cons, List.map_map, Nat.add_zero]
    refine congrArg₂ List.cons rfl ?_
    apply List.map_congr_left
    intro a _
    simp only [Function.comp_apply, Prod.mk.injEq, Nat.succ_eq_add_one]
    exact ⟨by omega, trivial⟩

/-! ## Claim C8 -/

/-- C8: the rename executor processes all plans in order even if some fail —
success_count + failure_count always equals the number of plans, and exactly
one progress event `(i+1, total)` is emitted per processed plan regardless of
outcome.  Concretely (second conjunct), with 3 plans on a filesystem where
the second plan's source "d/b.jpg" is missing, the run reports
`success_count = 2, failure_count = 1`, still processes the third plan
(renaming "d/c.jpg", whose planned target "d/x.jpg" is now occupied by plan
1's output, re-resolved to the fresh "d/z_1.jpg"), and emits the three
progress events. -/
theorem c8_failures_do_not_stop_batch :
    (∀ (fs : List String) (tasks : List RenameTask),
      (rename_files fs tasks).1 + (rename_files fs tasks).2.1 = tasks.length ∧
      (rename_files fs tasks).2.2.2 =
        (List.range tasks.length).map (fun j => (j + 1, tasks.length))) ∧
    rename_files ["d/a.jpg", "d/c.jpg"]
        [⟨"d/a.jpg", "d/x.jpg", "x", ".jpg"⟩,
         ⟨"d/b.jpg", "d/y.jpg", "y", ".jpg"⟩,
         ⟨"d/c.jpg", "d/x.jpg", "z", ".jpg"⟩] =
      (2, 1, ["d/z_1.jpg", "d/x.jpg"], [(1, 3), (2, 3), (3, 3)]) := by
  constructor
  · intro fs tasks
    refine ⟨renameGo_counts tasks.length tasks 0 fs, ?_⟩
    rw [rename_files, renameGo_progress tasks.length tasks 0 fs]
    apply List.map_congr_left
    intro a _
    simp only [Prod.mk.injEq, Nat.zero_add]
  · decide

/-! ## Claim C9 -/

/-- C9: the orchestrator renames a given batch at most once: once
`rename_completed` holds (the RenameDone state), any further rename request
is rejected with the state returned untouched — no tasks are launched, so no
filesystem mutation can occur — and this holds whatever scans are finished in
between, since `on_preview_finished` never clears the flag; only `reset_all`
(folder re-selection) does, making a new rename possible. -/
theorem c9_rename_at_most_once :
    (∀ (disk : String → List String) (st : AppState), st.rename_completed = true →
      rename_request disk st = (RequestResult.rejectedDone, st)) ∧
    (∀ st results, (on_preview_finished st results).rename_completed = st.rename_completed) ∧
    (∀ st, (reset_all st).rename_completed = false) ∧
    (∀ (disk : String → List String) (st : AppState) results, st.rename_completed = true →
      (rename_request disk (on_preview_finished st results)).1 = RequestResult.rejectedDone) := by
  refine ⟨?_, ?_, ?_, ?_⟩
  · intro disk st h
    simp [rename_request, h]
  · intro st results; rfl
  · intro st; rfl
  · intro disk st results h
    simp [rename_request, on_preview_finished, h]

/-- Witness for C9: a completed state concretely rejects a second request and
is left unchanged. -/
theorem c9_rename_at_most_once_witness :
    rename_request (fun _ => [])
        { selected_files := ["d/a.jpg"], preview_results := [], rename_completed := true } =
      (RequestResult.rejectedDone,
        { selected_files := ["d/a.jpg"], preview_results := [], rename_completed := true }) :=
  c9_rename_at_most_once.1 (fun _ => [])
    { selected_files := ["d/a.jpg"], preview_results := [], rename_completed := true } rfl

end PhotoRename
